import Mathlib

/-!
# Windows C-API registration entry point of `hms_services`

Shallow embedding of `windows/hms_services_plugin_c_api.cpp`:

```
void HmsServicesPluginCApiRegisterWithRegistrar(
    FlutterDesktopPluginRegistrarRef registrar) {
  hms_services::HmsServicesPlugin::RegisterWithRegistrar(
      flutter::PluginRegistrarManager::GetInstance()
          ->GetRegistrar<flutter::PluginRegistrarWindows>(registrar));
}
```

The three routines the function calls (`GetInstance`, `GetRegistrar`,
`RegisterWithRegistrar`) live in the Flutter runtime and in the plugin class;
they are parameters of the embedding, collected in `Host`.  Every routine is a
state transformer on the host state that either returns a value or raises a
failure (a C++ exception or abort); the state reached when the failure is
raised is kept.
-/

namespace HmsServices

/-- Effectful computation over a host state `S`: started in a state it ends
with a value or with a failure of type `E`, together with the state it left. -/
def Eff (S E : Type) (α : Type) : Type := S → Except E α × S

/-- Computation that returns `a` and leaves the state alone. -/
def Eff.pure {S E α : Type} (a : α) : Eff S E α := fun s => (Except.ok a, s)

/-- Sequencing: a failure of the first computation ends the whole computation
at the state where it was raised (nothing catches it). -/
def Eff.bind {S E α β : Type} (x : Eff S E α) (f : α → Eff S E β) : Eff S E β :=
  fun s =>
    match x s with
    | (Except.ok a, s1) => f a s1
    | (Except.error e, s1) => (Except.error e, s1)

instance instMonadEff (S E : Type) : Monad (Eff S E) where
  pure := Eff.pure
  bind := Eff.bind

/-- The collaborators of the entry point.  `H` is the type of
`FlutterDesktopPluginRegistrarRef` handles, `M` the type of the pointer
returned by `PluginRegistrarManager::GetInstance()`, `R` the type of the
`PluginRegistrarWindows*` returned by `GetRegistrar`. -/
structure Host (H M R E S : Type) where
  /-- Stands for `flutter::PluginRegistrarManager::GetInstance()`. -/
  GetInstance : Eff S E M
  /-- Stands for `manager->GetRegistrar<flutter::PluginRegistrarWindows>(ref)`. -/
  GetRegistrar : M → H → Eff S E R
  /-- Stands for `hms_services::HmsServicesPlugin::RegisterWithRegistrar(r)`. -/
  RegisterWithRegistrar : R → Eff S E Unit

variable {H M R E S : Type}

/-- The entry point.  The argument expression is evaluated first
(`GetInstance()`, then `->GetRegistrar(registrar)`), and its value is passed
to `HmsServicesPlugin::RegisterWithRegistrar`. -/
def HmsServicesPluginCApiRegisterWithRegistrar
    (host : Host H M R E S) (registrar : H) : Eff S E Unit := do
  let manager ← host.GetInstance
  let typed ← host.GetRegistrar manager registrar
  host.RegisterWithRegistrar typed

/-- The argument expression of the call in the source on its own: the
registrar-manager lookup `GetInstance()->GetRegistrar<...>(registrar)`. -/
def lookup (host : Host H M R E S) (registrar : H) : Eff S E R := do
  let manager ← host.GetInstance
  host.GetRegistrar manager registrar

/-- The composition the specification describes, written out on states: run
the lookup; if it returned a registrar, run the registration routine on that
registrar from the state the lookup left; if it failed, that failure is the
outcome. -/
def lookupThenRegister (host : Host H M R E S) (registrar : H) : Eff S E Unit :=
  fun s =>
    match lookup host registrar s with
    | (Except.ok r, s1) => host.RegisterWithRegistrar r s1
    | (Except.error e, s1) => (Except.error e, s1)

/-- Two invocations of the entry point one after the other, as in
`f(h1); f(h2);`. -/
def callTwice (host : Host H M R E S) (h1 h2 : H) : Eff S E Unit := do
  HmsServicesPluginCApiRegisterWithRegistrar host h1
  HmsServicesPluginCApiRegisterWithRegistrar host h2

/-! ## Observing the calls made -/

/-- A call of one of the three collaborators, with its arguments. -/
inductive Call (H M R : Type) where
  | getInstance : Call H M R
  | getRegistrar (manager : M) (registrar : H) : Call H M R
  | registerWithRegistrar (registrar : R) : Call H M R

/-- Runs `x` on the host part of the state and appends `c` to the log. -/
def logged {α : Type} (c : Call H M R) (x : Eff S E α) :
    Eff (S × List (Call H M R)) E α :=
  fun w =>
    match x w.1 with
    | (res, s1) => (res, (s1, w.2 ++ [c]))

/-- The host with every collaborator recording that it was called (and with
which arguments) in a log kept next to the host state. -/
def Host.traced (host : Host H M R E S) : Host H M R E (S × List (Call H M R)) where
  GetInstance := logged Call.getInstance host.GetInstance
  GetRegistrar := fun m h => logged (Call.getRegistrar m h) (host.GetRegistrar m h)
  RegisterWithRegistrar := fun r =>
    logged (Call.registerWithRegistrar r) (host.RegisterWithRegistrar r)

/-- Calls made by one invocation of the entry point started in state `s`. -/
def callTrace (host : Host H M R E S) (registrar : H) (s : S) : List (Call H M R) :=
  (HmsServicesPluginCApiRegisterWithRegistrar host.traced registrar (s, [])).2.2

/-- Calls made by two invocations in a row started in state `s`. -/
def callTraceTwice (host : Host H M R E S) (h1 h2 : H) (s : S) : List (Call H M R) :=
  (callTwice host.traced h1 h2 (s, [])).2.2

/-- Handles that were passed to `GetRegistrar`, in call order. -/
def lookupArgs : List (Call H M R) → List H
  | [] => []
  | Call.getRegistrar _ h :: cs => h :: lookupArgs cs
  | _ :: cs => lookupArgs cs

/-- Registrars that were passed to `RegisterWithRegistrar`, in call order. -/
def registerArgs : List (Call H M R) → List R
  | [] => []
  | Call.registerWithRegistrar r :: cs => r :: registerArgs cs
  | _ :: cs => registerArgs cs

/-! ## A state component that belongs to nobody -/

/-- Runs `x` on the host part of the state; the second component is carried
along untouched. -/
def framed {α : Type} (A : Type) (x : Eff S E α) : Eff (S × A) E α :=
  fun w =>
    match x w.1 with
    | (res, s1) => (res, (s1, w.2))

/-- The host placed next to a further state component `A` that none of its
routines reads or writes.  Whatever the entry point does to `A` it does by
itself. -/
def Host.withExtra (A : Type) (host : Host H M R E S) : Host H M R E (S × A) where
  GetInstance := framed A host.GetInstance
  GetRegistrar := fun m h => framed A (host.GetRegistrar m h)
  RegisterWithRegistrar := fun r => framed A (host.RegisterWithRegistrar r)

/-! ## A concrete host -/

/-- State of the sample host: handles the manager has seen and registrars the
plugin was registered with. -/
structure SampleState where
  known : List Nat
  plugins : List Nat
deriving DecidableEq

/-- Sample host: handle `0` cannot be resolved (failure `1`); any other handle
`h` resolves to registrar `h + 100` and is remembered by the manager;
registration fails for registrar `107` (failure `2`) and otherwise records the
registrar. -/
def sampleHost : Host Nat Unit Nat Nat SampleState where
  GetInstance := Eff.pure ()
  GetRegistrar := fun _ h s =>
    if h = 0 then (Except.error 1, s)
    else (Except.ok (h + 100), { s with known := h :: s.known })
  RegisterWithRegistrar := fun r s =>
    if r = 107 then (Except.error 2, s)
    else (Except.ok (), { s with plugins := r :: s.plugins })

/-- Initial state of the sample host. -/
def sampleInit : SampleState := { known := [], plugins := [] }

/-- Second sample host, a pure directory: handle `h` resolves to registrar
`h % 2` without touching the state, so distinct handles can share a registrar;
registration records the registrar and never fails. -/
def aliasHost : Host Nat Unit Nat Nat (List Nat) where
  GetInstance := Eff.pure ()
  GetRegistrar := fun _ h s => (Except.ok (h % 2), s)
  RegisterWithRegistrar := fun r s => (Except.ok (), r :: s)

/-! ## Basic lemmas -/

theorem bind_ok {α β : Type} (x : Eff S E α) (f : α → Eff S E β) (s s1 : S) (a : α)
    (hx : x s = (Except.ok a, s1)) : Eff.bind x f s = f a s1 := by
  simp [Eff.bind, hx]

theorem bind_error {α β : Type} (x : Eff S E α) (f : α → Eff S E β) (s s1 : S) (e : E)
    (hx : x s = (Except.error e, s1)) : Eff.bind x f s = (Except.error e, s1) := by
  simp [Eff.bind, hx]

theorem entry_eq_bind (host : Host H M R E S) (h : H) :
    HmsServicesPluginCApiRegisterWithRegistrar host h
      = Eff.bind (lookup host h) host.RegisterWithRegistrar := by
  funext s
  show Eff.bind host.GetInstance
      (fun m => Eff.bind (host.GetRegistrar m h) host.RegisterWithRegistrar) s
    = Eff.bind (Eff.bind host.GetInstance (fun m => host.GetRegistrar m h))
      host.RegisterWithRegistrar s
  rcases hgi : host.GetInstance s with ⟨_ | m, s1⟩ <;> simp [Eff.bind, hgi]

theorem entry_eq_lookupThenRegister (host : Host H M R E S) (h : H) (s : S) :
    HmsServicesPluginCApiRegisterWithRegistrar host h s = lookupThenRegister host h s := by
  rw [entry_eq_bind]
  unfold lookupThenRegister Eff.bind
  rcases lookup host h s with ⟨e | r, s1⟩ <;> rfl

/-- The entry point written out on states. -/
theorem entry_run (host : Host H M R E S) (h : H) (s : S) :
    HmsServicesPluginCApiRegisterWithRegistrar host h s =
      match host.GetInstance s with
      | (Except.error e, s1) => (Except.error e, s1)
      | (Except.ok m, s1) =>
        match host.GetRegistrar m h s1 with
        | (Except.error e, s2) => (Except.error e, s2)
        | (Except.ok r, s2) => host.RegisterWithRegistrar r s2 := by
  show Eff.bind host.GetInstance
      (fun m => Eff.bind (host.GetRegistrar m h) host.RegisterWithRegistrar) s = _
  rcases hgi : host.GetInstance s with ⟨e | m, s1⟩
  · simp [Eff.bind, hgi]
  · rcases hgr : host.GetRegistrar m h s1 with ⟨e | r, s2⟩ <;> simp [Eff.bind, hgi, hgr]

/-- The lookup written out on states. -/
theorem lookup_run (host : Host H M R E S) (h : H) (s : S) :
    lookup host h s =
      match host.GetInstance s with
      | (Except.error e, s1) => (Except.error e, s1)
      | (Except.ok m, s1) => host.GetRegistrar m h s1 := by
  show Eff.bind host.GetInstance (fun m => host.GetRegistrar m h) s = _
  rcases hgi : host.GetInstance s with ⟨e | m, s1⟩ <;> simp [Eff.bind, hgi]

/-- The instrumented entry point written out on states: outcome and host state
are those of the plain run, and the log grows by the calls made. -/
theorem traced_run (host : Host H M R E S) (h : H) (s : S) (l : List (Call H M R)) :
    HmsServicesPluginCApiRegisterWithRegistrar host.traced h (s, l) =
      match host.GetInstance s with
      | (Except.error e, s1) => (Except.error e, (s1, l ++ [Call.getInstance]))
      | (Except.ok m, s1) =>
        match host.GetRegistrar m h s1 with
        | (Except.error e, s2) =>
          (Except.error e, (s2, l ++ [Call.getInstance, Call.getRegistrar m h]))
        | (Except.ok r, s2) =>
          ((host.RegisterWithRegistrar r s2).1, ((host.RegisterWithRegistrar r s2).2,
            l ++ [Call.getInstance, Call.getRegistrar m h, Call.registerWithRegistrar r])) := by
  rw [entry_run]
  rcases hgi : host.GetInstance s with ⟨e | m, s1⟩
  · simp [Host.traced, logged, hgi]
  · rcases hgr : host.GetRegistrar m h s1 with ⟨e | r, s2⟩ <;>
      simp [Host.traced, logged, hgi, hgr]

/-- Calls made by one invocation, by cases on what the collaborators do. -/
theorem callTrace_run (host : Host H M R E S) (h : H) (s : S) :
    callTrace host h s =
      match host.GetInstance s with
      | (Except.error _, _) => [Call.getInstance]
      | (Except.ok m, s1) =>
        match host.GetRegistrar m h s1 with
        | (Except.error _, _) => [Call.getInstance, Call.getRegistrar m h]
        | (Except.ok r, _) =>
          [Call.getInstance, Call.getRegistrar m h, Call.registerWithRegistrar r] := by
  unfold callTrace
  rw [traced_run]
  rcases hgi : host.GetInstance s with ⟨e | m, s1⟩
  · simp
  · rcases hgr : host.GetRegistrar m h s1 with ⟨e | r, s2⟩ <;> simp [hgr]

/-- Instrumenting the host changes neither the outcome nor the host state, and
the log only grows, by the calls of this invocation. -/
theorem traced_eq (host : Host H M R E S) (h : H) (s : S) (l : List (Call H M R)) :
    HmsServicesPluginCApiRegisterWithRegistrar host.traced h (s, l) =
      ((HmsServicesPluginCApiRegisterWithRegistrar host h s).1,
        ((HmsServicesPluginCApiRegisterWithRegistrar host h s).2,
          l ++ callTrace host h s)) := by
  rw [traced_run, callTrace_run, entry_run]
  rcases hgi : host.GetInstance s with ⟨e | m, s1⟩
  · simp
  · rcases hgr : host.GetRegistrar m h s1 with ⟨e | r, s2⟩ <;> simp [hgr]

/-- Two invocations in a row written out on states. -/
theorem callTwice_run (host : Host H M R E S) (h1 h2 : H) (s : S) :
    callTwice host h1 h2 s =
      match HmsServicesPluginCApiRegisterWithRegistrar host h1 s with
      | (Except.error e, s1) => (Except.error e, s1)
      | (Except.ok _, s1) => HmsServicesPluginCApiRegisterWithRegistrar host h2 s1 := by
  show Eff.bind (HmsServicesPluginCApiRegisterWithRegistrar host h1)
      (fun _ => HmsServicesPluginCApiRegisterWithRegistrar host h2) s = _
  rcases h1r : HmsServicesPluginCApiRegisterWithRegistrar host h1 s with ⟨e | u, s1⟩ <;>
    simp [Eff.bind, h1r]

/-- When the first invocation returns, the calls of two invocations in a row
are the calls of the first followed by the calls of the second, the second
started in the state the first one left. -/
theorem callTraceTwice_append (host : Host H M R E S) (h1 h2 : H) (s s1 : S)
    (hfirst : HmsServicesPluginCApiRegisterWithRegistrar host h1 s = (Except.ok (), s1)) :
    callTraceTwice host h1 h2 s = callTrace host h1 s ++ callTrace host h2 s1 := by
  unfold callTraceTwice
  rw [callTwice_run, traced_eq, hfirst]
  simp [traced_eq]

/-- The entry point over a host with an additional state component. -/
theorem withExtra_run (A : Type) (host : Host H M R E S) (h : H) (s : S) (a : A) :
    HmsServicesPluginCApiRegisterWithRegistrar (host.withExtra A) h (s, a) =
      ((HmsServicesPluginCApiRegisterWithRegistrar host h s).1,
        ((HmsServicesPluginCApiRegisterWithRegistrar host h s).2, a)) := by
  rw [entry_run, entry_run]
  rcases hgi : host.GetInstance s with ⟨e | m, s1⟩
  · simp [Host.withExtra, framed, hgi]
  · rcases hgr : host.GetRegistrar m h s1 with ⟨e | r, s2⟩ <;>
      simp [Host.withExtra, framed, hgi, hgr]

/-- A lookup that returned a registrar means both of its steps returned. -/
theorem lookup_ok_inv (host : Host H M R E S) (h : H) (s s1 : S) (r : R)
    (hl : lookup host h s = (Except.ok r, s1)) :
    ∃ m s0, host.GetInstance s = (Except.ok m, s0)
      ∧ host.GetRegistrar m h s0 = (Except.ok r, s1) := by
  rw [lookup_run] at hl
  rcases hgi : host.GetInstance s with ⟨e | m, s0⟩
  · simp [hgi] at hl
  · exact ⟨m, s0, rfl, by simpa [hgi] using hl⟩

/-- Registrars handed to the registration routine, read off the lookup. -/
theorem registerArgs_callTrace (host : Host H M R E S) (h : H) (s : S) :
    registerArgs (callTrace host h s) =
      match lookup host h s with
      | (Except.error _, _) => []
      | (Except.ok r, _) => [r] := by
  rw [callTrace_run, lookup_run]
  rcases hgi : host.GetInstance s with ⟨e | m, s1⟩
  · simp [registerArgs]
  · rcases hgr : host.GetRegistrar m h s1 with ⟨e | r, s2⟩ <;> simp [registerArgs, hgr]

/-! ## The claims -/

/-- C1: for a valid handle (one the registrar-manager lookup resolves), one
invocation of the entry point equals the registration routine applied to the
registrar the lookup returned, from the state the lookup left; `GetRegistrar`
is called exactly once, with the handle; `RegisterWithRegistrar` is called
exactly once, with exactly the registrar the lookup returned; and the calls
made are, in order, the accessor, the lookup on `h`, the registration. -/
theorem C1_one_lookup_one_registration (host : Host H M R E S) (h : H) (s s1 : S) (r : R)
    (hvalid : lookup host h s = (Except.ok r, s1)) :
    HmsServicesPluginCApiRegisterWithRegistrar host h s = host.RegisterWithRegistrar r s1
      ∧ lookupArgs (callTrace host h s) = [h]
      ∧ registerArgs (callTrace host h s) = [r]
      ∧ ∃ m, callTrace host h s =
          [Call.getInstance, Call.getRegistrar m h, Call.registerWithRegistrar r] := by
  obtain ⟨m, s0, hgi, hgr⟩ := lookup_ok_inv host h s s1 r hvalid
  have htrace : callTrace host h s =
      [Call.getInstance, Call.getRegistrar m h, Call.registerWithRegistrar r] := by
    rw [callTrace_run]; simp [hgi, hgr]
  refine ⟨?_, ?_, ?_, m, htrace⟩
  · rw [entry_run]; simp [hgi, hgr]
  · rw [htrace]; rfl
  · rw [htrace]; rfl

/-- C1 at the sample host: handle `5` resolves to registrar `105`. -/
theorem C1_one_lookup_one_registration_witness :
    lookup sampleHost 5 sampleInit = (Except.ok 105, { known := [5], plugins := [] })
      ∧ HmsServicesPluginCApiRegisterWithRegistrar sampleHost 5 sampleInit
          = sampleHost.RegisterWithRegistrar 105 { known := [5], plugins := [] }
      ∧ lookupArgs (callTrace sampleHost 5 sampleInit) = [5]
      ∧ registerArgs (callTrace sampleHost 5 sampleInit) = [105]
      ∧ ∃ m, callTrace sampleHost 5 sampleInit =
          [Call.getInstance, Call.getRegistrar m 5, Call.registerWithRegistrar 105] :=
  ⟨rfl, C1_one_lookup_one_registration sampleHost 5 sampleInit
    { known := [5], plugins := [] } 105 rfl⟩

/-- C2: the entry point neither catches nor translates failures.  If the
lookup on `h` fails with `e`, or the lookup returns a registrar and the
registration routine fails on it with `e`, the entry point fails with that
same `e`, in the state where `e` was raised. -/
theorem C2_failures_propagate (host : Host H M R E S) (h : H) (s s2 : S) (e : E)
    (hfail : lookup host h s = (Except.error e, s2) ∨
      ∃ r s1, lookup host h s = (Except.ok r, s1)
        ∧ host.RegisterWithRegistrar r s1 = (Except.error e, s2)) :
    HmsServicesPluginCApiRegisterWithRegistrar host h s = (Except.error e, s2) := by
  rw [entry_eq_bind]
  rcases hfail with hl | ⟨r, s1, hl, hr⟩
  · exact bind_error _ _ s s2 e hl
  · rw [bind_ok _ _ s s1 r hl, hr]

/-- C2 at the sample host: handle `0` fails in the lookup (failure `1`), handle
`7` fails in the registration routine (failure `2`). -/
theorem C2_failures_propagate_witness :
    HmsServicesPluginCApiRegisterWithRegistrar sampleHost 0 sampleInit
        = (Except.error 1, sampleInit)
      ∧ HmsServicesPluginCApiRegisterWithRegistrar sampleHost 7 sampleInit
        = (Except.error 2, { known := [7], plugins := [] }) :=
  ⟨C2_failures_propagate sampleHost 0 sampleInit sampleInit 1 (Or.inl rfl),
   C2_failures_propagate sampleHost 7 sampleInit { known := [7], plugins := [] } 2
    (Or.inr ⟨107, { known := [7], plugins := [] }, rfl, rfl⟩)⟩

/-- C3: the entry point has no failure of its own and does not check the
handle.  For every handle (a null one included, `H` being arbitrary): if the
entry point fails with `e` then the lookup failed with `e` or the registration
routine did; if the lookup and the registration routine both return, the entry
point returns; the entry point is the lookup applied to `h` followed by the
registration routine, nothing before it; the only handle ever given to
`GetRegistrar` is `h` itself, and it is given whenever the accessor returns. -/
theorem C3_no_errors_of_its_own (host : Host H M R E S) (h : H) (s : S) :
    (∀ e s2, HmsServicesPluginCApiRegisterWithRegistrar host h s = (Except.error e, s2) →
        lookup host h s = (Except.error e, s2) ∨
        ∃ r s1, lookup host h s = (Except.ok r, s1)
          ∧ host.RegisterWithRegistrar r s1 = (Except.error e, s2))
      ∧ (∀ r s1 s2, lookup host h s = (Except.ok r, s1) →
          host.RegisterWithRegistrar r s1 = (Except.ok (), s2) →
          HmsServicesPluginCApiRegisterWithRegistrar host h s = (Except.ok (), s2))
      ∧ HmsServicesPluginCApiRegisterWithRegistrar host h
          = Eff.bind (lookup host h) host.RegisterWithRegistrar
      ∧ (∀ h0, h0 ∈ lookupArgs (callTrace host h s) → h0 = h)
      ∧ (∀ m s1, host.GetInstance s = (Except.ok m, s1) →
          lookupArgs (callTrace host h s) = [h]) := by
  refine ⟨?_, ?_, entry_eq_bind host h, ?_, ?_⟩
  · intro e s2 hrun
    rw [entry_eq_bind] at hrun
    rcases hl : lookup host h s with ⟨e1 | r, s1⟩
    · left
      rw [bind_error _ _ s s1 e1 hl] at hrun
      simp only [Prod.mk.injEq, Except.error.injEq] at hrun
      rw [hrun.1, hrun.2]
    · right
      rw [bind_ok _ _ s s1 r hl] at hrun
      exact ⟨r, s1, rfl, hrun⟩
  · intro r s1 s2 hl hr
    rw [entry_eq_bind, bind_ok _ _ s s1 r hl, hr]
  · intro h0 hmem
    rw [callTrace_run] at hmem
    rcases hgi : host.GetInstance s with ⟨e | m, s1⟩
    · simp [hgi, lookupArgs] at hmem
    · rcases hgr : host.GetRegistrar m h s1 with ⟨e | r, s2⟩ <;>
        simpa [hgi, hgr, lookupArgs] using hmem
  · intro m s1 hgi
    rw [callTrace_run]
    rcases hgr : host.GetRegistrar m h s1 with ⟨e | r, s2⟩ <;>
      simp [hgi, hgr, lookupArgs]

/-- C3 at the sample host: the null handle `0` is handed to `GetRegistrar` as
it is and the failure seen is the one the lookup raised; handle `5`, for which
lookup and registration return, returns. -/
theorem C3_no_errors_of_its_own_witness :
    lookupArgs (callTrace sampleHost 0 sampleInit) = [0]
      ∧ (lookup sampleHost 0 sampleInit = (Except.error 1, sampleInit) ∨
          ∃ r s1, lookup sampleHost 0 sampleInit = (Except.ok r, s1)
            ∧ sampleHost.RegisterWithRegistrar r s1 = (Except.error 1, sampleInit))
      ∧ HmsServicesPluginCApiRegisterWithRegistrar sampleHost 5 sampleInit
          = (Except.ok (), { known := [5], plugins := [105] }) :=
  ⟨(C3_no_errors_of_its_own sampleHost 0 sampleInit).2.2.2.2 () sampleInit rfl,
   (C3_no_errors_of_its_own sampleHost 0 sampleInit).1 1 sampleInit rfl,
   (C3_no_errors_of_its_own sampleHost 5 sampleInit).2.1 105
      { known := [5], plugins := [] } { known := [5], plugins := [105] } rfl rfl⟩

/-- C4: two invocations one after the other, with handles `h1` and `h2` that
both resolve, are two independent registrations.  The calls made are those of
the invocation on `h1` alone followed by those of the invocation on `h2` alone
(started in the host state it finds); the registration routine is called
exactly twice, first with the registrar resolved from `h1`, then with the
registrar resolved from `h2`; `GetRegistrar` sees `h1`, then `h2`; and the
outcome is that of the second registration. -/
theorem C4_two_handles_two_registrations (host : Host H M R E S) (h1 h2 : H)
    (s s1 s2 s3 : S) (r1 r2 : R)
    (hv1 : lookup host h1 s = (Except.ok r1, s1))
    (hr1 : host.RegisterWithRegistrar r1 s1 = (Except.ok (), s2))
    (hv2 : lookup host h2 s2 = (Except.ok r2, s3)) :
    callTraceTwice host h1 h2 s = callTrace host h1 s ++ callTrace host h2 s2
      ∧ registerArgs (callTraceTwice host h1 h2 s) = [r1, r2]
      ∧ lookupArgs (callTraceTwice host h1 h2 s) = [h1, h2]
      ∧ callTwice host h1 h2 s = host.RegisterWithRegistrar r2 s3 := by
  have hfirst : HmsServicesPluginCApiRegisterWithRegistrar host h1 s = (Except.ok (), s2) := by
    rw [entry_eq_bind, bind_ok _ _ s s1 r1 hv1, hr1]
  have hsecond : HmsServicesPluginCApiRegisterWithRegistrar host h2 s2
      = host.RegisterWithRegistrar r2 s3 := by
    rw [entry_eq_bind, bind_ok _ _ s2 s3 r2 hv2]
  have happ := callTraceTwice_append host h1 h2 s s2 hfirst
  obtain ⟨m1, t1, hgi1, hgr1⟩ := lookup_ok_inv host h1 s s1 r1 hv1
  obtain ⟨m2, t2, hgi2, hgr2⟩ := lookup_ok_inv host h2 s2 s3 r2 hv2
  have ht1 : callTrace host h1 s =
      [Call.getInstance, Call.getRegistrar m1 h1, Call.registerWithRegistrar r1] := by
    rw [callTrace_run]; simp [hgi1, hgr1]
  have ht2 : callTrace host h2 s2 =
      [Call.getInstance, Call.getRegistrar m2 h2, Call.registerWithRegistrar r2] := by
    rw [callTrace_run]; simp [hgi2, hgr2]
  refine ⟨happ, ?_, ?_, ?_⟩
  · rw [happ, ht1, ht2]; rfl
  · rw [happ, ht1, ht2]; rfl
  · rw [callTwice_run, hfirst]; exact hsecond

/-- C4 at the sample host: handles `1` and `2`, registrars `101` and `102`. -/
theorem C4_two_handles_two_registrations_witness :
    callTraceTwice sampleHost 1 2 sampleInit
        = callTrace sampleHost 1 sampleInit
          ++ callTrace sampleHost 2 { known := [1], plugins := [101] }
      ∧ registerArgs (callTraceTwice sampleHost 1 2 sampleInit) = [101, 102]
      ∧ lookupArgs (callTraceTwice sampleHost 1 2 sampleInit) = [1, 2]
      ∧ callTwice sampleHost 1 2 sampleInit
        = sampleHost.RegisterWithRegistrar 102 { known := [2, 1], plugins := [101] } :=
  C4_two_handles_two_registrations sampleHost 1 2 sampleInit
    { known := [1], plugins := [] } { known := [1], plugins := [101] }
    { known := [2, 1], plugins := [101] } 101 102 rfl rfl rfl

/-- C5: the entry point holds no state and does not keep the handle.  Outcome
and state after an invocation are exactly those of the lookup followed by the
registration routine; a state component that the host routines do not touch is
left as it was, whatever its type and value, and has no influence on outcome
or host state; and an invocation made after an earlier one behaves as an
invocation made afresh in the host state the earlier one left. -/
theorem C5_adapter_holds_no_state (host : Host H M R E S) (h : H) (s : S) :
    HmsServicesPluginCApiRegisterWithRegistrar host h s = lookupThenRegister host h s
      ∧ (∀ (A : Type) (a : A),
          HmsServicesPluginCApiRegisterWithRegistrar (host.withExtra A) h (s, a)
            = ((HmsServicesPluginCApiRegisterWithRegistrar host h s).1,
                ((HmsServicesPluginCApiRegisterWithRegistrar host h s).2, a)))
      ∧ (∀ h0 s0, HmsServicesPluginCApiRegisterWithRegistrar host h0 s0 = (Except.ok (), s) →
          callTwice host h0 h s0 = HmsServicesPluginCApiRegisterWithRegistrar host h s) := by
  refine ⟨entry_eq_lookupThenRegister host h s, fun A a => withExtra_run A host h s a, ?_⟩
  intro h0 s0 hearlier
  rw [callTwice_run, hearlier]

/-- C5 at the sample host: after an earlier invocation on handle `1` the
invocation on handle `2` is the invocation on `2` in the state reached. -/
theorem C5_adapter_holds_no_state_witness :
    HmsServicesPluginCApiRegisterWithRegistrar sampleHost 1 sampleInit
        = (Except.ok (), { known := [1], plugins := [101] })
      ∧ callTwice sampleHost 1 2 sampleInit
        = HmsServicesPluginCApiRegisterWithRegistrar sampleHost 2
            { known := [1], plugins := [101] } :=
  ⟨rfl, (C5_adapter_holds_no_state sampleHost 2 { known := [1], plugins := [101] }).2.2
    1 sampleInit rfl⟩

/-- C6 as stated fails: at the sample host handle `1` is valid, one invocation
leaves one registration, two invocations in a row leave two. -/
theorem C6_counterexample :
    lookup sampleHost 1 sampleInit = (Except.ok 101, { known := [1], plugins := [] })
      ∧ HmsServicesPluginCApiRegisterWithRegistrar sampleHost 1 sampleInit
          = (Except.ok (), { known := [1], plugins := [101] })
      ∧ callTwice sampleHost 1 1 sampleInit
          = (Except.ok (), { known := [1, 1], plugins := [101, 101] })
      ∧ (callTwice sampleHost 1 1 sampleInit).2.plugins
          ≠ (HmsServicesPluginCApiRegisterWithRegistrar sampleHost 1 sampleInit).2.plugins :=
  ⟨rfl, rfl, rfl, by decide⟩

/-- C6 amended: let `h` be valid at both invocations (the lookup resolves it
to `r1` in the initial state and to `r2` in the state `s1` the first invocation
left) and let the first invocation return.  Then two invocations in a row call
the registration routine exactly twice, with `r1` and then with `r2`, and
`GetRegistrar` exactly twice, with `h` both times; their outcome is that of the
second registration, run on `r2` from the state `s2` the second lookup left;
and the host state after two invocations equals the state after one exactly
when that second registration ends in `s1`. -/
theorem C6_twice_registers_twice (host : Host H M R E S) (h : H)
    (s s0 s1 s2 : S) (r1 r2 : R)
    (hv1 : lookup host h s = (Except.ok r1, s0))
    (hr1 : host.RegisterWithRegistrar r1 s0 = (Except.ok (), s1))
    (hv2 : lookup host h s1 = (Except.ok r2, s2)) :
    registerArgs (callTraceTwice host h h s) = [r1, r2]
      ∧ lookupArgs (callTraceTwice host h h s) = [h, h]
      ∧ callTwice host h h s = host.RegisterWithRegistrar r2 s2
      ∧ ((callTwice host h h s).2 = (HmsServicesPluginCApiRegisterWithRegistrar host h s).2
          ↔ (host.RegisterWithRegistrar r2 s2).2 = s1) := by
  have hfirst : HmsServicesPluginCApiRegisterWithRegistrar host h s = (Except.ok (), s1) := by
    rw [entry_eq_bind, bind_ok _ _ s s0 r1 hv1, hr1]
  have hsecond : HmsServicesPluginCApiRegisterWithRegistrar host h s1
      = host.RegisterWithRegistrar r2 s2 := by
    rw [entry_eq_bind, bind_ok _ _ s1 s2 r2 hv2]
  have htwice : callTwice host h h s = host.RegisterWithRegistrar r2 s2 := by
    rw [callTwice_run, hfirst]; exact hsecond
  have happ := callTraceTwice_append host h h s s1 hfirst
  obtain ⟨m1, t1, hgi1, hgr1⟩ := lookup_ok_inv host h s s0 r1 hv1
  obtain ⟨m2, t2, hgi2, hgr2⟩ := lookup_ok_inv host h s1 s2 r2 hv2
  have ht1 : callTrace host h s =
      [Call.getInstance, Call.getRegistrar m1 h, Call.registerWithRegistrar r1] := by
    rw [callTrace_run]; simp [hgi1, hgr1]
  have ht2 : callTrace host h s1 =
      [Call.getInstance, Call.getRegistrar m2 h, Call.registerWithRegistrar r2] := by
    rw [callTrace_run]; simp [hgi2, hgr2]
  refine ⟨?_, ?_, htwice, ?_⟩
  · rw [happ, ht1, ht2]; rfl
  · rw [happ, ht1, ht2]; rfl
  · rw [htwice, hfirst]

/-- C6 amended, at the sample host with handle `1`: registrar `101` is
registered twice, and the state after two invocations differs from the state
after one because the second registration does not end in the state the first
invocation left. -/
theorem C6_twice_registers_twice_witness :
    registerArgs (callTraceTwice sampleHost 1 1 sampleInit) = [101, 101]
      ∧ lookupArgs (callTraceTwice sampleHost 1 1 sampleInit) = [1, 1]
      ∧ callTwice sampleHost 1 1 sampleInit
          = sampleHost.RegisterWithRegistrar 101 { known := [1, 1], plugins := [101] }
      ∧ ((callTwice sampleHost 1 1 sampleInit).2
            = (HmsServicesPluginCApiRegisterWithRegistrar sampleHost 1 sampleInit).2
          ↔ (sampleHost.RegisterWithRegistrar 101 { known := [1, 1], plugins := [101] }).2
            = { known := [1], plugins := [101] }) :=
  C6_twice_registers_twice sampleHost 1 sampleInit
    { known := [1], plugins := [] } { known := [1], plugins := [101] }
    { known := [1, 1], plugins := [101] } 101 101 rfl rfl rfl

/-- C7: the lookup is completed before the registration routine is entered.
If the lookup on `h` fails, `RegisterWithRegistrar` is not called at all during
that invocation, and the invocation ends with the lookup's failure in the state
the lookup left, so nothing was registered. -/
theorem C7_failed_lookup_skips_registration (host : Host H M R E S) (h : H) (s s1 : S) (e : E)
    (hfail : lookup host h s = (Except.error e, s1)) :
    registerArgs (callTrace host h s) = []
      ∧ (∀ r, Call.registerWithRegistrar r ∉ callTrace host h s)
      ∧ HmsServicesPluginCApiRegisterWithRegistrar host h s = (Except.error e, s1) := by
  refine ⟨?_, ?_, ?_⟩
  · rw [registerArgs_callTrace, hfail]
  · intro r hmem
    rw [lookup_run] at hfail
    rw [callTrace_run] at hmem
    rcases hgi : host.GetInstance s with ⟨e0 | m, s0⟩
    · simp [hgi] at hmem
    · rcases hgr : host.GetRegistrar m h s0 with ⟨e0 | r0, s2⟩
      · simp [hgi, hgr] at hmem
      · simp [hgi, hgr] at hfail
  · rw [entry_eq_bind]
    exact bind_error _ _ s s1 e hfail

/-- C7 at the sample host: the null handle `0` is not resolved and nothing is
registered. -/
theorem C7_failed_lookup_skips_registration_witness :
    registerArgs (callTrace sampleHost 0 sampleInit) = []
      ∧ (∀ r, Call.registerWithRegistrar r ∉ callTrace sampleHost 0 sampleInit)
      ∧ HmsServicesPluginCApiRegisterWithRegistrar sampleHost 0 sampleInit
          = (Except.error 1, sampleInit) :=
  C7_failed_lookup_skips_registration sampleHost 0 sampleInit sampleInit 1 rfl

/-- C8: the handle is used as the key of the lookup and nothing else.  If in
state `s` the lookup gives the same result (registrar and state left) for `h1`
and for `h2`, then the invocations on `h1` and on `h2` hand the same argument
to the registration routine and end with the same outcome and state. -/
theorem C8_handle_is_only_lookup_key (host : Host H M R E S) (h1 h2 : H) (s : S)
    (hsame : lookup host h1 s = lookup host h2 s) :
    registerArgs (callTrace host h1 s) = registerArgs (callTrace host h2 s)
      ∧ HmsServicesPluginCApiRegisterWithRegistrar host h1 s
          = HmsServicesPluginCApiRegisterWithRegistrar host h2 s := by
  refine ⟨?_, ?_⟩
  · rw [registerArgs_callTrace, registerArgs_callTrace, hsame]
  · rw [entry_eq_lookupThenRegister, entry_eq_lookupThenRegister]
    unfold lookupThenRegister
    rw [hsame]

/-- C8 at the directory host: handles `2` and `4` both resolve to registrar
`0`. -/
theorem C8_handle_is_only_lookup_key_witness :
    lookup aliasHost 2 [] = (Except.ok 0, [])
      ∧ lookup aliasHost 4 [] = (Except.ok 0, [])
      ∧ registerArgs (callTrace aliasHost 2 []) = registerArgs (callTrace aliasHost 4 [])
      ∧ HmsServicesPluginCApiRegisterWithRegistrar aliasHost 2 []
          = HmsServicesPluginCApiRegisterWithRegistrar aliasHost 4 [] :=
  ⟨rfl, rfl, C8_handle_is_only_lookup_key aliasHost 2 4 [] rfl⟩

end HmsServices
